import Mathlib

/-!
Verification of the `@soffinal/rpc` protocol core against its specification.

The development shallowly embeds the two behavioral components of the
repository:

* `Action.handle` (src/action.ts) — the server-side dispatcher.  JavaScript
  runtime values are modelled by the inductive `JSVal`; JavaScript exceptions
  (and, equivalently, rejected promises — `handle` is an `async` function that
  awaits every intermediate result, so a synchronous throw and an asynchronous
  rejection are indistinguishable to its caller) are modelled by the `Except`
  monad, a rejection carrying the thrown value.
* `Client.create` (src/client.ts) — the client-side multiplexer: the per-call
  push of tagged responses, the truthiness-based filter/map derivation of the
  per-action streams, and the proxy's memoizing property lookup.

The `@soffinal/stream` package is an external dependency (not part of this
repository); its combinators are modelled from the spec where needed, with a
doc comment saying so.
-/

namespace Rpc

/-- A JavaScript runtime value, as far as the protocol core observes it:
`undefined`, `null`, booleans, numbers (the code never does arithmetic, so
integers suffice and NaN never arises), strings, arrays and plain objects.
Objects are association lists of own enumerable string-keyed properties; the
constructions in this file keep keys unique, and `lookup` takes the first
binding. -/
inductive JSVal where
  | undefined
  | null
  | bool (b : Bool)
  | num (n : Int)
  | str (s : String)
  | arr (elems : List JSVal)
  | obj (fields : List (String × JSVal))
  deriving Repr, Inhabited

/-- JavaScript truthiness: `undefined`, `null`, `false`, `0` and `""` are
falsy; every array and object is truthy. -/
def jsTruthy : JSVal → Bool
  | .undefined => false
  | .null => false
  | .bool b => b
  | .num n => n != 0
  | .str s => s != ""
  | .arr _ => true
  | .obj _ => true

/-- Whether a value is `null` or `undefined` (property access on it throws). -/
def jsNullish : JSVal → Bool
  | .undefined => true
  | .null => true
  | _ => false

mutual
/-- JavaScript `ToString`, used when a value is used as a property key
(`actions[request.action]`): arrays stringify via `join(",")` with nullish
elements rendered as the empty string, plain objects as `"[object Object]"`. -/
def jsToString : JSVal → String
  | .undefined => "undefined"
  | .null => "null"
  | .bool b => cond b "true" "false"
  | .num n => toString n
  | .str s => s
  | .arr xs => jsJoin xs
  | .obj _ => "[object Object]"

/-- Comma-join of array elements for `jsToString` (JavaScript
`Array.prototype.toString`). -/
def jsJoin : List JSVal → String
  | [] => ""
  | [x] => jsJoinElem x
  | x :: xs => jsJoinElem x ++ "," ++ jsJoin xs

/-- One array element rendered for `jsJoin`: nullish elements become `""`. -/
def jsJoinElem : JSVal → String
  | .undefined => ""
  | .null => ""
  | .bool b => cond b "true" "false"
  | .num n => toString n
  | .str s => s
  | .arr xs => jsJoin xs
  | .obj _ => "[object Object]"
end

/-- Property read `base[key]`, throwing: on `null`/`undefined` it throws a
`TypeError` (modelled as the thrown value `JSVal.str "TypeError"`); on an
object it yields the property's value, or `undefined` when absent.  The
dispatcher only ever reads the plain data properties `action` and `args`, for
which access on any other non-nullish value (number, string, boolean, array)
yields `undefined`; prototype-inherited and index properties play no role in
the code under verification and are not modelled. -/
def jsGetField : JSVal → String → Except JSVal JSVal
  | .undefined, _ => .error (.str "TypeError")
  | .null, _ => .error (.str "TypeError")
  | .obj fs, k => .ok ((fs.lookup k).getD .undefined)
  | _, _ => .ok .undefined

/-- Non-throwing own-property read, used on values already known to be
objects (the tagged responses the client pushes): the property's value, or
`undefined` when absent or when the base is not an object. -/
def jsGetOwn (v : JSVal) (k : String) : JSVal :=
  match v with
  | .obj fs => (fs.lookup k).getD .undefined
  | _ => .undefined

/-- Whether an object value carries the property `k` at all (presence, as
opposed to truthiness of its value). -/
def jsHasField (v : JSVal) (k : String) : Bool :=
  match v with
  | .obj fs => (fs.lookup k).isSome
  | _ => false

/-- Spread of a value in argument position (`f(...v)`): arrays spread to
their elements, strings to their characters; any other value is not iterable
and the spread throws a `TypeError`. -/
def jsSpreadCall : JSVal → Except JSVal (List JSVal)
  | .arr xs => .ok xs
  | .str s => .ok (s.toList.map (fun c => .str c.toString))
  | _ => .error (.str "TypeError")

/-- The own enumerable string-keyed properties a value contributes when
spread into an object literal (`{...v}`): an object its fields, an array and
a string their index-keyed elements, any other primitive nothing. -/
def jsOwnFields : JSVal → List (String × JSVal)
  | .obj fs => fs
  | .arr xs => xs.enum.map (fun p => (toString p.1, p.2))
  | .str s => (s.toList.map (fun c => JSVal.str c.toString)).enum.map
      (fun p => (toString p.1, p.2))
  | _ => []

/-- Strict equality `v === a` against a string literal: true exactly when `v`
is that string. -/
def jsStrEq (v : JSVal) (a : String) : Bool :=
  match v with
  | .str s => s == a
  | _ => false

namespace Action

/-- A registered handler, as the dispatcher calls it: it receives the flat
JavaScript argument list (`(context, ...request.args)`) and either returns a
value or throws (rejects) with a fault. -/
def Handler : Type := List JSVal → Except JSVal JSVal

/-- `Action.success(data)` from src/action.ts: the envelope `{ data }`. -/
def success (data : JSVal) : JSVal := .obj [("data", data)]

/-- `Action.error(error)` from src/action.ts: the envelope `{ error }`. -/
def error (e : JSVal) : JSVal := .obj [("error", e)]

/-- The body of the `try` block of `Action.handle` (src/action.ts lines
347-354), given the already looked-up handler: absent handler returns
`{error: "action-not-found"}`; otherwise `request.args` is read and spread
(throwing when it is not iterable — in particular when it is absent, hence
`undefined`), the handler is invoked with the whole `context` object as first
argument followed by the spread arguments, a falsy result is replaced by
`success(undefined)` and any other result is returned unchanged.  A thrown
fault propagates to the `catch` in `handle`. -/
def handleTry (action : Option Handler) (request context : JSVal) :
    Except JSVal JSVal :=
  match action with
  | none => .ok (error (.str "action-not-found"))
  | some h =>
    match jsGetField request "args" with
    | .error e => .error e
    | .ok argsVal =>
      match jsSpreadCall argsVal with
      | .error e => .error e
      | .ok args =>
        match h (context :: args) with
        | .error e => .error e
        | .ok result =>
          .ok (if jsTruthy result then result else success .undefined)

/-- The property names every plain-object registry inherits from
`Object.prototype`: a lookup `actions[key]` for one of these keys with no own
entry still finds the inherited member. -/
def objectProtoKeys : List String :=
  ["constructor", "hasOwnProperty", "isPrototypeOf", "propertyIsEnumerable",
   "toLocaleString", "toString", "valueOf", "__defineGetter__",
   "__defineSetter__", "__lookupGetter__", "__lookupSetter__", "__proto__"]

/-- What invoking an inherited `Object.prototype` member the way the
dispatcher invokes a handler — a bare strict-mode function call (the source
is an ES module, so `this` is `undefined`) with argument list
`(context, ...args)` — yields, per the ECMAScript definitions of these
members:
* `toString` with an undefined receiver ignores its arguments and returns
  the tag string `"[object Undefined]"`;
* `constructor` is the `Object` function: a nullish first argument gives a
  fresh empty object, an object or array argument is returned unchanged, and
  a primitive is boxed — the wrapper is modelled as an empty object, since
  the dispatcher observes only its truthiness before passing it through;
* `isPrototypeOf` returns `false` when its first argument is not an object,
  and otherwise throws (`ToObject` on the undefined receiver);
* `__proto__` is not a function at all: the property read yields the
  (truthy, non-callable) `Object.prototype` object, so the call itself
  throws;
* every other member (`hasOwnProperty`, `valueOf`, `toLocaleString`,
  `propertyIsEnumerable` and the four accessor-definition helpers) coerces
  its undefined receiver with `ToObject` (or invokes a method on it) and
  throws a `TypeError`. -/
def protoInvoke (key : String) (args : List JSVal) : Except JSVal JSVal :=
  if key = "toString" then .ok (.str "[object Undefined]")
  else if key = "constructor" then
    .ok (match args.headD .undefined with
      | .undefined => .obj []
      | .null => .obj []
      | .obj fs => .obj fs
      | .arr xs => .arr xs
      | _ => .obj [])
  else if key = "isPrototypeOf" then
    match args.headD .undefined with
    | .obj _ => .error (.str "TypeError")
    | .arr _ => .error (.str "TypeError")
    | _ => .ok (.bool false)
  else .error (.str "TypeError")

/-- The lookup `actions[request.action]` of src/action.ts line 346 on a
plain-object registry: JavaScript property lookup walks the prototype chain,
so a key with no own entry still finds the members of `Object.prototype` —
all of them truthy (functions, or the `Object.prototype` object itself for
`__proto__`), so the `!action` test at line 348 passes for them and they get
invoked like handlers.  Only a key absent from both the registry and
`Object.prototype` yields `undefined`.  An inherited member is reified as
the `Handler` describing its bare-call behavior (`protoInvoke`), which is
everything the dispatcher observes of it. -/
def registryLookup (actions : List (String × Handler)) (key : String) :
    Option Handler :=
  match actions.lookup key with
  | some h => some h
  | none =>
    if objectProtoKeys.contains key then some (protoInvoke key) else none

/-- `Action.handle(request, actions, context)` from src/action.ts lines
332-358.  The lookup `actions[request.action]` happens before the `try`
block, so a request on which reading `.action` throws (a nullish request)
makes `handle` reject; the property key is the `ToString` of the action
value, and the lookup walks the prototype chain (`registryLookup`).
Everything else runs inside `try`, whose `catch` turns any fault into the
resolved envelope `{error: "unknown"}`. -/
def handle (request : JSVal) (actions : List (String × Handler))
    (context : JSVal) : Except JSVal JSVal :=
  match jsGetField request "action" with
  | .error e => .error e
  | .ok actionVal =>
    match handleTry (registryLookup actions (jsToString actionVal))
        request context with
    | .ok v => .ok v
    | .error _ => .ok (error (.str "unknown"))

end Action

namespace Client

/-- The request object the client's action function builds
(`{ action: prop, args }`, src/client.ts line 195). -/
def mkRequest (a : String) (args : List JSVal) : JSVal :=
  .obj [("action", .str a), ("args", .arr args)]

/-- The tagged response `{...response, actionName: prop}` pushed by the
action function (src/client.ts line 199): the spread's own enumerable
properties followed by `actionName`, which overrides any spread-in
`actionName` binding (keys stay unique in the model, so the overridden
binding is dropped rather than shadowed). -/
def tagResponse (resp : JSVal) (a : String) : JSVal :=
  .obj ((jsOwnFields resp).filter (fun kv => kv.1 ≠ "actionName")
        ++ [("actionName", .str a)])

/-- Modelled from the spec: the `filter` combinator of the external
`@soffinal/stream` package (§4.2 of the spec: a derived stream via `pipe`
with a filter delivers exactly the source's pushed values satisfying the
predicate, in push order).  A stream is represented by the ordered list of
values it delivers to a listener subscribed from the start. -/
def streamFilter (p : JSVal → Bool) (pushes : List JSVal) : List JSVal :=
  pushes.filter p

/-- Modelled from the spec: the `map` combinator of the external
`@soffinal/stream` package (§4.2 of the spec: a derived stream via `pipe`
with a map delivers the transform of each value the source pushes, in push
order). -/
def streamMap (f : JSVal → JSVal) (pushes : List JSVal) : List JSVal :=
  pushes.map f

/-- The filter predicate of the per-action success stream
(src/client.ts line 186): `!response.error && response.actionName === prop`. -/
def actionDataPred (a : String) (r : JSVal) : Bool :=
  !jsTruthy (jsGetOwn r "error") && jsStrEq (jsGetOwn r "actionName") a

/-- The filter predicate of the per-action error stream
(src/client.ts line 190): `response.error && response.actionName === prop`. -/
def actionErrorPred (a : String) (r : JSVal) : Bool :=
  jsTruthy (jsGetOwn r "error") && jsStrEq (jsGetOwn r "actionName") a

/-- First pipe stage of `client.<a>.data`: the global response stream
filtered by `actionDataPred` (src/client.ts lines 185-186). -/
def actionDataFiltered (a : String) (pushes : List JSVal) : List JSVal :=
  streamFilter (actionDataPred a) pushes

/-- Second pipe stage of `client.<a>.data`: the filtered stream projected to
`response.data` (src/client.ts line 187). -/
def actionDataStream (a : String) (pushes : List JSVal) : List JSVal :=
  streamMap (fun r => jsGetOwn r "data") (actionDataFiltered a pushes)

/-- First pipe stage of `client.<a>.error`: the global response stream
filtered by `actionErrorPred` (src/client.ts lines 189-190). -/
def actionErrorFiltered (a : String) (pushes : List JSVal) : List JSVal :=
  streamFilter (actionErrorPred a) pushes

/-- Second pipe stage of `client.<a>.error`: the filtered stream projected to
`response.error` (src/client.ts line 191). -/
def actionErrorStream (a : String) (pushes : List JSVal) : List JSVal :=
  streamMap (fun r => jsGetOwn r "error") (actionErrorFiltered a pushes)

/-- The `actionFunction` of src/client.ts lines 194-202, with the global
response stream's push history made explicit: it builds the request, calls
the transport, and — only when the transport resolves — pushes exactly one
tagged response and resolves with the untagged envelope.  When the transport
rejects, the `await` re-throws before the push line, so the history is
unchanged and the call rejects with the transport's fault. -/
def actionCall (send : JSVal → Except JSVal JSVal) (a : String)
    (args : List JSVal) (pushed : List JSVal) :
    List JSVal × Except JSVal JSVal :=
  match send (mkRequest a args) with
  | .error f => (pushed, .error f)
  | .ok resp => (pushed ++ [tagResponse resp a], .ok resp)

/-- The memoized per-action object the proxy builds on first access
(src/client.ts lines 183-209): the callable action function with its two
derived streams attached.  Stream instances are identified by an allocation
id drawn from a counter, so that "same instance" is expressible in the
model: a re-creation would allocate fresh ids, memoization preserves them. -/
structure ActionObj where
  name : String
  dataStreamId : Nat
  errorStreamId : Nat
  deriving Repr, DecidableEq

/-- What a property access on the client proxy returns: one of the three
global streams (identified by allocation id) or a per-action object. -/
inductive PropResult where
  | stream (id : Nat)
  | action (o : ActionObj)
  deriving Repr, DecidableEq

/-- Allocation id of the global `responses` stream (created first in
`Client.create`, src/client.ts line 165). -/
def responsesStreamId : Nat := 0

/-- Allocation id of the global `error` stream (src/client.ts lines 168-170). -/
def globalErrorStreamId : Nat := 1

/-- Allocation id of the global `data` stream (src/client.ts lines 172-174). -/
def globalDataStreamId : Nat := 2

/-- The mutable state of one client instance: the `actionObjects` cache
(src/client.ts line 166) and the next fresh stream allocation id. -/
structure ClientState where
  cache : List (String × ActionObj)
  nextId : Nat
  deriving Repr, DecidableEq

/-- The state of a freshly created client: empty cache; ids 0, 1, 2 are taken
by the three global streams. -/
def initState : ClientState := ⟨[], 3⟩

/-- The proxy `get` trap of src/client.ts lines 177-212: the reserved names
`responses`, `error` and `data` return the global streams without touching
the cache; any other name is looked up in the cache, and on a miss a fresh
action object (with two freshly allocated derived streams) is created,
cached and returned. -/
def proxyGet (st : ClientState) (prop : String) : ClientState × PropResult :=
  if prop = "responses" then (st, .stream responsesStreamId)
  else if prop = "error" then (st, .stream globalErrorStreamId)
  else if prop = "data" then (st, .stream globalDataStreamId)
  else
    match st.cache.lookup prop with
    | some o => (st, .action o)
    | none =>
      let o : ActionObj := ⟨prop, st.nextId, st.nextId + 1⟩
      ({ cache := st.cache ++ [(prop, o)], nextId := st.nextId + 2 }, .action o)

end Client

/-- A handler that returns its first argument (the context slot) as the data
payload, used to observe exactly which value the dispatcher injects. -/
def echoContextHandler : Action.Handler :=
  fun args => .ok (.obj [("data", args.headD .undefined)])

/-- The context bundle of the README quick start: the per-action context is
stored under the name-suffixed key `getUserDataContext`. -/
def sampleBundle : JSVal :=
  .obj [("getUserDataContext", .obj [("userId", .str "u")])]

/-- A request for the action `getUserData` carrying an empty argument
array. -/
def sampleRequest : JSVal :=
  .obj [("action", .str "getUserData"), ("args", .arr [])]

/-- A handler that ignores its arguments and returns the envelope
`{data: 1}`. -/
def constOkHandler : Action.Handler := fun _ => .ok (.obj [("data", .num 1)])

/-- A tagged response whose `error` field is present but holds the falsy
payload `0`. -/
def falsyErrorResponse : JSVal :=
  .obj [("error", .num 0), ("actionName", .str "a")]

/-- A tagged response whose `error` field holds a truthy payload. -/
def boomResponse : JSVal :=
  .obj [("error", .str "boom"), ("actionName", .str "a")]

/-- A transport that resolves every request with the envelope `{data: 1}`. -/
def okSend : JSVal → Except JSVal JSVal :=
  fun _ => Except.ok (.obj [("data", .num 1)])

theorem lookup_append_single {β : Type} (l : List (String × β)) (p : String)
    (v : β) (h : l.lookup p = none) : (l ++ [(p, v)]).lookup p = some v := by
  induction l with
  | nil => simp [List.lookup]
  | cons kv t ih =>
    cases kv with
    | mk k b =>
      by_cases hpk : (p == k) = true
      · simp [List.lookup, hpk] at h
      · rw [Bool.not_eq_true] at hpk
        simp only [List.lookup, hpk] at h
        simp only [List.cons_append, List.lookup, hpk]
        exact ih h

theorem jsGetField_ok_any (r : JSVal) (k k2 : String) (v : JSVal)
    (h : jsGetField r k = Except.ok v) : ∃ w, jsGetField r k2 = Except.ok w := by
  cases r <;> simp [jsGetField] at h ⊢

theorem registryLookup_own (actions : List (String × Action.Handler))
    (k : String) (h : Action.Handler) (hlk : actions.lookup k = some h) :
    Action.registryLookup actions k = some h := by
  simp only [Action.registryLookup, hlk]

theorem handle_eval (request context : JSVal)
    (actions : List (String × Action.Handler)) (av : JSVal)
    (h : Action.Handler) (argsVal : JSVal) (args : List JSVal) (r : JSVal)
    (hav : jsGetField request "action" = Except.ok av)
    (hlk : actions.lookup (jsToString av) = some h)
    (hargs : jsGetField request "args" = Except.ok argsVal)
    (hsp : jsSpreadCall argsVal = Except.ok args)
    (hret : h (context :: args) = Except.ok r) :
    Action.handle request actions context
      = Except.ok (if jsTruthy r then r else Action.success .undefined) := by
  simp only [Action.handle, hav, registryLookup_own actions (jsToString av) h hlk,
    Action.handleTry, hargs, hsp, hret]

/-- C1: evaluation at the failing input.  With the README quick-start bundle
`{getUserDataContext: {userId: "u"}}` and a registered handler that returns
its first argument as its data payload, `Action.handle` resolves to
`{data: <the entire bundle>}`: the dispatcher passes the whole context bundle
as the first argument, not the bundle entry for the action
(`{userId: "u"}`), refuting the claimed invocation shape
`(contextBundle[request.action], ...request.args)`. -/
theorem c1_handler_receives_whole_bundle :
    Action.handle sampleRequest [("getUserData", echoContextHandler)]
        sampleBundle
      = Except.ok (.obj [("data", sampleBundle)])
    ∧ JSVal.obj [("data", sampleBundle)]
      ≠ .obj [("data", jsGetOwn sampleBundle "getUserDataContext")] := by
  refine ⟨rfl, ?_⟩
  simp [sampleBundle, jsGetOwn, List.lookup]

/-- C2: evaluation at the failing input.  For the nullish request `null`,
`Action.handle` rejects with the `TypeError` thrown by the lookup
`actions[request.action]`, which the source evaluates before entering its
`try` block — refuting the claim that `handle` never rejects on arbitrary
request values. -/
theorem c2_null_request_rejects :
    Action.handle .null [] .undefined = Except.error (.str "TypeError") := rfl

/-- C3: evaluation at the failing input.  For the request `{action: "a"}`
with no `args` field and a registered handler returning `{data: 1}`,
`Action.handle` resolves to the dispatcher-synthesized `{error: "unknown"}`
(the spread `...request.args` of `undefined` throws before the handler is
invoked), not to the handler outcome `{data: 1}` — refuting the claim that an
absent `args` is treated as an empty sequence. -/
theorem c3_missing_args_yields_unknown :
    Action.handle (.obj [("action", .str "a")]) [("a", constOkHandler)] .undefined
      = Except.ok (Action.error (.str "unknown"))
    ∧ Action.error (.str "unknown") ≠ .obj [("data", .num 1)] := by
  refine ⟨rfl, ?_⟩
  simp [Action.error]

/-- C4, counterexample to the claim as stated: the tagged response
`{error: 0, actionName: "a"}` contains an `error` field and matches action
`"a"`, yet it is not delivered to the per-action error stream (its filter
tests truthiness of `response.error`, and `0` is falsy) and is instead
delivered to the per-action data stream, projected to its absent `data`
field, i.e. `undefined` — so membership is not decided by which field is
present. -/
theorem c4_presence_counterexample :
    jsHasField falsyErrorResponse "error" = true
    ∧ jsStrEq (jsGetOwn falsyErrorResponse "actionName") "a" = true
    ∧ Client.actionErrorStream "a" [falsyErrorResponse] = []
    ∧ Client.actionDataStream "a" [falsyErrorResponse] = [JSVal.undefined] :=
  ⟨rfl, rfl, rfl, rfl⟩

/-- C4, amended: membership of the per-action streams is decided by the
truthiness of the `error` field of the tagged response (together with strict
equality of `actionName`): a pushed response enters the filtered stage of
`client.a.error` exactly when its `error` field is truthy and its
`actionName` equals `a`, and the filtered stage of `client.a.data` exactly
when its `error` field is falsy or absent and its `actionName` equals `a`;
the second pipe stage projects these to the `error` (resp. `data`)
payload. -/
theorem c4_demux_by_truthiness (a : String) (pushes : List JSVal) (r : JSVal)
    (hr : r ∈ pushes) :
    (r ∈ Client.actionErrorFiltered a pushes ↔
      jsTruthy (jsGetOwn r "error") = true
        ∧ jsStrEq (jsGetOwn r "actionName") a = true)
    ∧ (r ∈ Client.actionDataFiltered a pushes ↔
      jsTruthy (jsGetOwn r "error") = false
        ∧ jsStrEq (jsGetOwn r "actionName") a = true) := by
  constructor
  · simp [Client.actionErrorFiltered, Client.streamFilter, List.mem_filter,
      hr, Client.actionErrorPred, Bool.and_eq_true]
  · simp [Client.actionDataFiltered, Client.streamFilter, List.mem_filter,
      hr, Client.actionDataPred, Bool.and_eq_true, Bool.not_eq_true']

theorem c4_demux_by_truthiness_witness :
    boomResponse ∈ Client.actionErrorFiltered "a" [boomResponse] :=
  ((c4_demux_by_truthiness "a" [boomResponse] boomResponse
      (List.mem_singleton.mpr rfl)).1).mpr ⟨rfl, rfl⟩

/-- C5: for every transport, action name, argument list and prior push
history — when the transport resolves with an envelope, the call appends
exactly one tagged response (the envelope extended with `actionName`) to the
global response stream and resolves with the untagged envelope, never
rejecting, whatever the envelope's success/error shape; when the transport
rejects, the push history is unchanged and the call rejects with the
transport fault. -/
theorem c5_push_once_and_resolve (send : JSVal → Except JSVal JSVal)
    (a : String) (args : List JSVal) (pushed : List JSVal) :
    (∀ env, send (Client.mkRequest a args) = Except.ok env →
        Client.actionCall send a args pushed
          = (pushed ++ [Client.tagResponse env a], Except.ok env))
    ∧ (∀ f, send (Client.mkRequest a args) = Except.error f →
        Client.actionCall send a args pushed = (pushed, Except.error f)) := by
  constructor
  · intro env henv
    simp [Client.actionCall, henv]
  · intro f hf
    simp [Client.actionCall, hf]

theorem c5_push_once_and_resolve_witness :
    Client.actionCall okSend "foo" [] []
      = ([Client.tagResponse (.obj [("data", .num 1)]) "foo"],
          Except.ok (.obj [("data", .num 1)])) :=
  (c5_push_once_and_resolve okSend "foo" [] []).1 _ rfl

/-- C6: for every request on which reading `request.action` succeeds, every
context and every registry whose matching handler throws (synchronously or by
rejecting — `handle` awaits, so both reach its `catch` identically) on every
argument list, `Action.handle` resolves — never rejects — to
`{error: "unknown"}`, and the original fault value does not escape to the
caller. -/
theorem c6_thrown_fault_becomes_unknown
    (request context : JSVal) (actions : List (String × Action.Handler))
    (av : JSVal) (h : Action.Handler)
    (hav : jsGetField request "action" = Except.ok av)
    (hlk : actions.lookup (jsToString av) = some h)
    (hthrow : ∀ args, ∃ f, h args = Except.error f) :
    Action.handle request actions context
      = Except.ok (Action.error (.str "unknown")) := by
  obtain ⟨w, hw⟩ := jsGetField_ok_any request "action" "args" av hav
  simp only [Action.handle, hav,
    registryLookup_own actions (jsToString av) h hlk, Action.handleTry, hw]
  cases hsp : jsSpreadCall w with
  | error e => rfl
  | ok args =>
    obtain ⟨f, hf⟩ := hthrow (context :: args)
    simp only [hf]

theorem c6_thrown_fault_becomes_unknown_witness :
    Action.handle (.obj [("action", .str "a"), ("args", .arr [])])
        [("a", fun _ => Except.error (.str "boom"))] .undefined
      = Except.ok (Action.error (.str "unknown")) :=
  c6_thrown_fault_becomes_unknown _ _ _ (.str "a") _ rfl rfl
    (fun _ => ⟨.str "boom", rfl⟩)

/-- C7, counterexample to the claim as stated: the action name `toString` has
no entry in the (empty) handler registry, yet `Action.handle` does not return
`{error: "action-not-found"}` — the JavaScript lookup finds the inherited
`Object.prototype.toString`, the `!action` test passes, the member is
invoked, and `handle` resolves with its truthy result
`"[object Undefined]"`.  Likewise `__proto__` finds the non-callable
`Object.prototype` object and the failed call makes `handle` resolve with
`{error: "unknown"}`. -/
theorem c7_proto_lookup_counterexample :
    Action.handle (.obj [("action", .str "toString"), ("args", .arr [])])
        ([] : List (String × Action.Handler)) .undefined
      = Except.ok (.str "[object Undefined]")
    ∧ JSVal.str "[object Undefined]" ≠ Action.error (.str "action-not-found")
    ∧ Action.handle (.obj [("action", .str "__proto__"), ("args", .arr [])])
        ([] : List (String × Action.Handler)) .undefined
      = Except.ok (Action.error (.str "unknown")) := by
  refine ⟨rfl, ?_, rfl⟩
  simp [Action.error]

/-- C7, amended: first, for every request on which reading `request.action`
succeeds, whose action key has no registry entry and is not the name of a
member inherited from `Object.prototype`, `Action.handle` returns
`{error: "action-not-found"}` — uniformly in the registry and context, so no
registered handler can influence (nor be invoked on) this path; second, a
handler registered under the empty-string name is still looked up and
dispatched: its (truthy) outcome is returned, not `action-not-found`. -/
theorem c7_not_found_and_empty_name :
    (∀ (request context : JSVal) (actions : List (String × Action.Handler))
        (av : JSVal),
        jsGetField request "action" = Except.ok av →
        actions.lookup (jsToString av) = none →
        jsToString av ∉ Action.objectProtoKeys →
        Action.handle request actions context
          = Except.ok (Action.error (.str "action-not-found")))
    ∧ (∀ (h : Action.Handler) (context r : JSVal) (args : List JSVal),
        h (context :: args) = Except.ok r →
        jsTruthy r = true →
        Action.handle (.obj [("action", .str ""), ("args", .arr args)])
          [("", h)] context = Except.ok r) := by
  constructor
  · intro request context actions av hav hlk hproto
    have hreg : Action.registryLookup actions (jsToString av) = none := by
      simp [Action.registryLookup, hlk, hproto]
    simp only [Action.handle, hav, hreg, Action.handleTry]
  · intro h context r args hret htr
    have heval := handle_eval (.obj [("action", .str ""), ("args", .arr args)])
      context [("", h)] (.str "") h (.arr args) args r rfl rfl rfl rfl hret
    rw [heval]
    simp [htr]

theorem c7_not_found_and_empty_name_witness :
    Action.handle (.obj [("action", .str "ghost"), ("args", .arr [])])
        ([] : List (String × Action.Handler)) .undefined
      = Except.ok (Action.error (.str "action-not-found")) :=
  c7_not_found_and_empty_name.1 _ .undefined [] (.str "ghost") rfl rfl
    (by decide)

/-- C8: for every registered action name and request carrying an `args`
array, when the handler returns an envelope (any object value — plain objects
are truthy, and the dispatcher inspects nothing inside it), `Action.handle`
returns exactly that value unchanged; when the handler returns nothing
(`undefined`), it returns `success(undefined)`, i.e. `{data: undefined}`. -/
theorem c8_envelope_passthrough
    (a : String) (args : List JSVal) (context : JSVal)
    (actions : List (String × Action.Handler)) (h : Action.Handler) (v : JSVal)
    (hlk : actions.lookup a = some h)
    (hret : h (context :: args) = Except.ok v) :
    ((∃ fs, v = JSVal.obj fs) →
      Action.handle (.obj [("action", .str a), ("args", .arr args)]) actions
          context
        = Except.ok v)
    ∧ (v = .undefined →
      Action.handle (.obj [("action", .str a), ("args", .arr args)]) actions
          context
        = Except.ok (Action.success .undefined)) := by
  have hlk2 : actions.lookup (jsToString (.str a)) = some h := hlk
  have heval := handle_eval (.obj [("action", .str a), ("args", .arr args)])
    context actions (.str a) h (.arr args) args v rfl hlk2 rfl rfl hret
  constructor
  · rintro ⟨fs, rfl⟩
    rw [heval]
    simp [jsTruthy]
  · rintro rfl
    rw [heval]
    simp [jsTruthy]

theorem c8_envelope_passthrough_witness :
    Action.handle (.obj [("action", .str "a"), ("args", .arr [.num 7])])
        [("a", constOkHandler)] .undefined
      = Except.ok (.obj [("data", .num 1)]) :=
  (c8_envelope_passthrough "a" [.num 7] .undefined [("a", constOkHandler)]
      constOkHandler (.obj [("data", .num 1)]) rfl rfl).1
    ⟨[("data", .num 1)], rfl⟩

/-- C9: for every client state and every property name other than the three
reserved ones, a second access to the same action property returns the very
result of the first access and leaves the client state unchanged — the same
cached action object, hence (by its allocation ids) the same per-action
`data` and `error` stream instances, so listeners registered via either
access observe the same pushes. -/
theorem c9_memoized_action_access (st : Client.ClientState) (p : String)
    (h1 : p ≠ "responses") (h2 : p ≠ "error") (h3 : p ≠ "data") :
    Client.proxyGet (Client.proxyGet st p).1 p = Client.proxyGet st p
    ∧ ∃ o : Client.ActionObj,
        (Client.proxyGet st p).2 = Client.PropResult.action o
        ∧ (Client.proxyGet (Client.proxyGet st p).1 p).2
            = Client.PropResult.action o := by
  cases hc : st.cache.lookup p with
  | some o =>
    have he : Client.proxyGet st p = (st, Client.PropResult.action o) := by
      simp [Client.proxyGet, h1, h2, h3, hc]
    refine ⟨?_, o, ?_, ?_⟩ <;> simp [he]
  | none =>
    have hc2 : (st.cache
          ++ [(p, (⟨p, st.nextId, st.nextId + 1⟩ : Client.ActionObj))]).lookup p
        = some ⟨p, st.nextId, st.nextId + 1⟩ :=
      lookup_append_single st.cache p _ hc
    have he : Client.proxyGet st p
        = ({ cache := st.cache ++ [(p, ⟨p, st.nextId, st.nextId + 1⟩)],
             nextId := st.nextId + 2 },
           Client.PropResult.action ⟨p, st.nextId, st.nextId + 1⟩) := by
      simp [Client.proxyGet, h1, h2, h3, hc]
    have he2 : Client.proxyGet
        ({ cache := st.cache ++ [(p, ⟨p, st.nextId, st.nextId + 1⟩)],
           nextId := st.nextId + 2 } : Client.ClientState) p
        = ({ cache := st.cache ++ [(p, ⟨p, st.nextId, st.nextId + 1⟩)],
             nextId := st.nextId + 2 },
           Client.PropResult.action ⟨p, st.nextId, st.nextId + 1⟩) := by
      simp [Client.proxyGet, h1, h2, h3, hc2]
    refine ⟨?_, ⟨p, st.nextId, st.nextId + 1⟩, ?_, ?_⟩ <;> simp [he, he2]

theorem c9_memoized_action_access_witness :
    Client.proxyGet (Client.proxyGet Client.initState "foo").1 "foo"
      = Client.proxyGet Client.initState "foo" :=
  (c9_memoized_action_access Client.initState "foo" (by simp) (by simp)
    (by simp)).1

/-- C10: for every client state, accessing any of the reserved names
`responses`, `error` and `data` leaves the state untouched and returns the
corresponding global stream; in particular the result is never a per-action
object, so a server action registered under one of these names cannot be
obtained or invoked as an action function through the client. -/
theorem c10_reserved_names_are_global_streams (st : Client.ClientState)
    (p : String) (hp : p = "responses" ∨ p = "error" ∨ p = "data") :
    (Client.proxyGet st p).1 = st
    ∧ (p = "responses" → (Client.proxyGet st p).2
        = Client.PropResult.stream Client.responsesStreamId)
    ∧ (p = "error" → (Client.proxyGet st p).2
        = Client.PropResult.stream Client.globalErrorStreamId)
    ∧ (p = "data" → (Client.proxyGet st p).2
        = Client.PropResult.stream Client.globalDataStreamId)
    ∧ ∀ o : Client.ActionObj,
        (Client.proxyGet st p).2 ≠ Client.PropResult.action o := by
  rcases hp with rfl | rfl | rfl <;> simp [Client.proxyGet]

theorem c10_reserved_names_are_global_streams_witness :
    (Client.proxyGet Client.initState "data").2
      ≠ Client.PropResult.action ⟨"data", 9, 10⟩ :=
  (c10_reserved_names_are_global_streams Client.initState "data"
    (Or.inr (Or.inr rfl))).2.2.2.2 ⟨"data", 9, 10⟩

end Rpc
